import Mathlib

/-!
Shallow embedding of the performance-monitoring core of
`src/server.js` (the RedM admin-panel monitor): history samples,
retention-based pruning, hourly bucket aggregation, CPU-usage
computation from two counter snapshots, the latency probe, and the
JSON persistence of the history window.

Timestamps are modelled as integers (milliseconds since the epoch,
the value of `new Date(e.time).getTime()` / `Date.now()`); sample
measurements are modelled as rationals (JavaScript numbers on the
values this program produces are decimal fractions, handled exactly
by the rationals).
-/

set_option linter.unusedVariables false

namespace Monitor

/-- One hour in milliseconds (`ONE_HOUR = 60 * 60 * 1000`). -/
def ONE_HOUR : ℤ := 3600000

/-- Six hours in milliseconds (`SIX_HOURS = 6 * ONE_HOUR`). -/
def SIX_HOURS : ℤ := 6 * ONE_HOUR

/-- A history sample as appended by `recordPerformance`:
`{ time, cpu, ram, ping }`, with `time` already parsed to epoch
milliseconds (every use in the code is `new Date(e.time).getTime()`). -/
structure Entry where
  time : ℤ
  cpu : ℚ
  ram : ℚ
  ping : ℚ
deriving DecidableEq, Repr

/-- The retention filter
`performanceHistory.filter(e => now - new Date(e.time).getTime() <= R)`
used for both the cleanup and the `lastSixHours` selection. -/
def retainFilter (now R : ℤ) (w : List Entry) : List Entry :=
  w.filter (fun e => decide (now - e.time ≤ R))

/-- The cleanup step of `recordPerformance`:
`recent = history.filter(e => now - t(e) <= R);
if (history.length !== recent.length) history = recent;`
(the length-unchanged case keeps the old array object). -/
def prune (now R : ℤ) (w : List Entry) : List Entry :=
  let recent := retainFilter now R w
  if w.length ≠ recent.length then recent else w

theorem retainFilter_length_eq (now R : ℤ) (w : List Entry)
    (h : w.length = (retainFilter now R w).length) :
    retainFilter now R w = w := by
  apply List.filter_eq_self.mpr
  intro a ha
  by_contra hp
  have hlt : (retainFilter now R w).length < w.length := by
    apply List.length_filter_lt_length_iff_exists.mpr
    exact ⟨a, ha, hp⟩
  omega

theorem prune_eq_retainFilter (now R : ℤ) (w : List Entry) :
    prune now R w = retainFilter now R w := by
  unfold prune
  by_cases h : w.length ≠ (retainFilter now R w).length
  · simp [h]
  · push_neg at h
    simp [h, retainFilter_length_eq now R w h]

/-- C1: after `prune(now, R)`, every remaining sample satisfies
`now - timestamp ≤ R`, and every sample of the original window that
was removed violates that bound (`now - timestamp > R`). -/
theorem prune_retention_bound (now R : ℤ) (w : List Entry) :
    (∀ e ∈ prune now R w, now - e.time ≤ R) ∧
    (∀ e ∈ w, e ∉ prune now R w → now - e.time > R) := by
  rw [prune_eq_retainFilter]
  constructor
  · intro e he
    have := List.mem_filter.mp he
    simpa using this.2
  · intro e he hne
    by_contra hle
    push_neg at hle
    exact hne (List.mem_filter.mpr ⟨he, by simpa using hle⟩)

theorem prune_retention_bound_witness :
    (10 : ℤ) - ({ time := 8, cpu := 1, ram := 1, ping := 1 } : Entry).time ≤ 3 ∧
    (10 : ℤ) - ({ time := 0, cpu := 2, ram := 2, ping := 2 } : Entry).time > 3 := by
  constructor
  · exact (prune_retention_bound 10 3
      [{ time := 8, cpu := 1, ram := 1, ping := 1 },
       { time := 0, cpu := 2, ram := 2, ping := 2 }]).1
      { time := 8, cpu := 1, ram := 1, ping := 1 } (by decide)
  · exact (prune_retention_bound 10 3
      [{ time := 8, cpu := 1, ram := 1, ping := 1 },
       { time := 0, cpu := 2, ram := 2, ping := 2 }]).2
      { time := 0, cpu := 2, ram := 2, ping := 2 } (by decide) (by decide)

/-- JavaScript `Math.round`: round to the nearest integer, ties toward
positive infinity. -/
def jsRound (q : ℚ) : ℤ := ⌊q + 1 / 2⌋

/-- One hourly bucket pushed by the aggregation loop of
`recordPerformance`: its end instant (the value rendered by
`toLocaleTimeString` as the label) and the rounded per-key means. -/
structure Bucket where
  endTime : ℤ
  cpu : ℤ
  ram : ℤ
  ping : ℤ
deriving DecidableEq, Repr

/-- The samples of hour slot `i` (`i = 5` oldest, `i = 0` newest):
`h.filter(e => t >= now - (i+1)*ONE_HOUR && t < now - i*ONE_HOUR)`. -/
def hourEntries (h : List Entry) (now : ℤ) (i : ℕ) : List Entry :=
  h.filter (fun e =>
    decide (now - ((i : ℤ) + 1) * ONE_HOUR ≤ e.time ∧ e.time < now - (i : ℤ) * ONE_HOUR))

/-- Per-key mean of a bucket selection:
`l.length ? l.reduce((a, c) => a + c[key], 0) / l.length : 0`. -/
def avgKey (l : List Entry) (f : Entry → ℚ) : ℚ :=
  if l.length > 0 then (l.map f).sum / (l.length : ℚ) else 0

/-- One element of `hourlyData` for hour slot `i`. -/
def mkBucket (h : List Entry) (now : ℤ) (i : ℕ) : Bucket :=
  { endTime := now - (i : ℤ) * ONE_HOUR
    cpu := jsRound (avgKey (hourEntries h now i) (fun e => e.cpu))
    ram := jsRound (avgKey (hourEntries h now i) (fun e => e.ram))
    ping := jsRound (avgKey (hourEntries h now i) (fun e => e.ping)) }

/-- The `hourlyData` array built by the loop
`for (let i = 5; i >= 0; i--) hourlyData.push(...)` over the
`lastSixHours` selection of the window: six buckets, oldest first. -/
def aggregate (w : List Entry) (now : ℤ) : List Bucket :=
  (List.range 6).map (fun j => mkBucket (retainFilter now SIX_HOURS w) now (5 - j))

/-- The cached-series update of the variant whose aggregation is
unguarded (`performanceData = hourlyData` runs unconditionally): the
previous series is discarded whatever the window holds. -/
def updateSeries (old : List Bucket) (w : List Entry) (now : ℤ) : List Bucket :=
  aggregate w now

/-- The cached-series update of the variant that wraps the aggregation
in `if (lastSixHours.length > 0) { ... performanceData = hourlyData; }`:
with an empty retained window the old series stays in place. -/
def updateSeriesGuarded (old : List Bucket) (w : List Entry) (now : ℤ) : List Bucket :=
  if (retainFilter now SIX_HOURS w).length > 0 then aggregate w now else old

/-- A deliberately non-zero stale bucket used as the pre-existing
cached series in concrete refutations. -/
def staleBucket : Bucket := { endTime := 0, cpu := 37, ram := 37, ping := 37 }

/-- C2 counterexample: with an empty window, the guarded variant keeps
the previously cached series (here a single stale bucket) instead of
replacing it with the six-bucket aggregation result. -/
theorem guarded_update_keeps_old_series :
    updateSeriesGuarded [staleBucket] [] 0 = [staleBucket] ∧
    [staleBucket] ≠ aggregate [] 0 ∧
    (aggregate [] 0).length = 6 := by
  refine ⟨rfl, ?_, rfl⟩
  intro h
  have := congrArg List.length h
  simp [aggregate] at this

/-- C2 amended: an aggregation run always computes exactly six buckets;
the unguarded variant always installs them in place of the old series,
and the guarded variant does so whenever the retained window is
non-empty (with an empty retained window it keeps the old series). -/
theorem aggregate_replaces_series (old : List Bucket) (w : List Entry) (now : ℤ) :
    (aggregate w now).length = 6 ∧
    updateSeries old w now = aggregate w now ∧
    ((retainFilter now SIX_HOURS w).length > 0 →
      updateSeriesGuarded old w now = aggregate w now) := by
  refine ⟨by simp [aggregate], rfl, ?_⟩
  intro h
  simp [updateSeriesGuarded, h]

theorem aggregate_replaces_series_witness :
    updateSeriesGuarded [staleBucket] [{ time := 0, cpu := 1, ram := 2, ping := 3 }] 0 =
      aggregate [{ time := 0, cpu := 1, ram := 2, ping := 3 }] 0 :=
  (aggregate_replaces_series [staleBucket]
    [{ time := 0, cpu := 1, ram := 2, ping := 3 }] 0).2.2 (by decide)

theorem jsRound_eq_of (q : ℚ) (n : ℤ) (h1 : (n : ℚ) ≤ q + 1 / 2)
    (h2 : q + 1 / 2 < n + 1) : jsRound q = n := by
  unfold jsRound
  rw [Int.floor_eq_iff]
  exact ⟨h1, h2⟩

theorem jsRound_intCast (n : ℤ) : jsRound (n : ℚ) = n :=
  jsRound_eq_of _ _ (by norm_num) (by norm_num)

theorem jsRound_zero : jsRound 0 = 0 :=
  jsRound_eq_of 0 0 (by norm_num) (by norm_num)

theorem jsRound_five : jsRound 5 = 5 :=
  jsRound_eq_of 5 5 (by norm_num) (by norm_num)

theorem jsRound_ten : jsRound 10 = 10 :=
  jsRound_eq_of 10 10 (by norm_num) (by norm_num)

theorem jsRound_fifteen : jsRound 15 = 15 :=
  jsRound_eq_of 15 15 (by norm_num) (by norm_num)

theorem jsRound_twenty : jsRound 20 = 20 :=
  jsRound_eq_of 20 20 (by norm_num) (by norm_num)

theorem jsRound_fifty : jsRound 50 = 50 :=
  jsRound_eq_of 50 50 (by norm_num) (by norm_num)

theorem jsRound_sixty : jsRound 60 = 60 :=
  jsRound_eq_of 60 60 (by norm_num) (by norm_num)

theorem mkBucket_of_empty_slot (h : List Entry) (now : ℤ) (i : ℕ)
    (he : hourEntries h now i = []) :
    mkBucket h now i =
      { endTime := now - (i : ℤ) * ONE_HOUR, cpu := 0, ram := 0, ping := 0 } := by
  simp [mkBucket, he, avgKey, jsRound_zero]

/-- C6: if no sample of the window falls in the half-open interval of
the bucket at position `j` of the emitted series (position `j` covers
`[now - (6-j) hours, now - (5-j) hours)`, oldest first), that bucket is
emitted with `cpu = 0`, `ram = 0`, `ping = 0`. -/
theorem empty_bucket_is_zero (w : List Entry) (now : ℤ) (j : ℕ) (hj : j < 6)
    (hempty : ∀ e ∈ w,
      ¬ (now - (6 - (j : ℤ)) * ONE_HOUR ≤ e.time ∧
         e.time < now - (5 - (j : ℤ)) * ONE_HOUR)) :
    ((aggregate w now).getD j staleBucket).cpu = 0 ∧
    ((aggregate w now).getD j staleBucket).ram = 0 ∧
    ((aggregate w now).getD j staleBucket).ping = 0 := by
  have h1 : ((5 - j : ℕ) : ℤ) + 1 = 6 - (j : ℤ) := by omega
  have h2 : ((5 - j : ℕ) : ℤ) = 5 - (j : ℤ) := by omega
  have hfe : hourEntries (retainFilter now SIX_HOURS w) now (5 - j) = [] := by
    apply List.filter_eq_nil_iff.mpr
    intro e hew
    have hw : e ∈ w := (List.mem_filter.mp hew).1
    have hne := hempty e hw
    simp only [decide_eq_true_eq]
    rw [h1, h2]
    exact hne
  have hget : (aggregate w now).getD j staleBucket =
      mkBucket (retainFilter now SIX_HOURS w) now (5 - j) := by
    interval_cases j <;>
      simp [aggregate, show List.range 6 = [0, 1, 2, 3, 4, 5] from rfl]
  rw [hget, mkBucket_of_empty_slot _ _ _ hfe]
  exact ⟨rfl, rfl, rfl⟩

theorem empty_bucket_is_zero_witness :
    ((aggregate [{ time := 0, cpu := 9, ram := 9, ping := 9 }] 0).getD 0 staleBucket).cpu = 0 ∧
    ((aggregate [{ time := 0, cpu := 9, ram := 9, ping := 9 }] 0).getD 0 staleBucket).ram = 0 ∧
    ((aggregate [{ time := 0, cpu := 9, ram := 9, ping := 9 }] 0).getD 0 staleBucket).ping = 0 :=
  empty_bucket_is_zero [{ time := 0, cpu := 9, ram := 9, ping := 9 }] 0 0
    (by decide) (by decide)

/-- Time translation of a sample: the same measurements taken `d`
milliseconds later. -/
def shiftE (d : ℤ) (e : Entry) : Entry :=
  { e with time := e.time + d }

/-- Time translation of a bucket by `d` milliseconds. -/
def shiftB (d : ℤ) (b : Bucket) : Bucket :=
  { b with endTime := b.endTime + d }

theorem retainFilter_shift (d now R : ℤ) (w : List Entry) :
    retainFilter (now + d) R (w.map (shiftE d)) = (retainFilter now R w).map (shiftE d) := by
  unfold retainFilter
  rw [List.filter_map]
  congr 1
  apply List.filter_congr
  intro e he
  simp only [Function.comp_apply, shiftE]
  exact decide_eq_decide.mpr (by omega)

theorem hourEntries_shift (d : ℤ) (h : List Entry) (now : ℤ) (i : ℕ) :
    hourEntries (h.map (shiftE d)) (now + d) i = (hourEntries h now i).map (shiftE d) := by
  unfold hourEntries
  rw [List.filter_map]
  congr 1
  apply List.filter_congr
  intro e he
  simp only [Function.comp_apply, shiftE]
  exact decide_eq_decide.mpr (by omega)

theorem avgKey_shift (d : ℤ) (l : List Entry) (f : Entry → ℚ)
    (hf : ∀ e, f (shiftE d e) = f e) :
    avgKey (l.map (shiftE d)) f = avgKey l f := by
  simp [avgKey, List.map_map, Function.comp_def, hf]

theorem mkBucket_shift (d : ℤ) (h : List Entry) (now : ℤ) (i : ℕ) :
    mkBucket (h.map (shiftE d)) (now + d) i = shiftB d (mkBucket h now i) := by
  unfold mkBucket shiftB
  rw [hourEntries_shift]
  rw [avgKey_shift d _ (fun e => e.cpu) (fun e => rfl),
    avgKey_shift d _ (fun e => e.ram) (fun e => rfl),
    avgKey_shift d _ (fun e => e.ping) (fun e => rfl)]
  simp only [Bucket.mk.injEq, and_true, and_self]
  ring

theorem aggregate_shift (d : ℤ) (w : List Entry) (now : ℤ) :
    aggregate (w.map (shiftE d)) (now + d) = (aggregate w now).map (shiftB d) := by
  unfold aggregate
  rw [retainFilter_shift, List.map_map]
  apply List.map_congr_left
  intro j hj
  exact mkBucket_shift d _ now (5 - j)

theorem two_sample_scenario_base :
    aggregate
        [{ time := -1800000, cpu := 10, ram := 20, ping := 5 },
         { time := -5400000, cpu := 50, ram := 60, ping := 15 }] 0 =
      [{ endTime := -5 * ONE_HOUR, cpu := 0, ram := 0, ping := 0 },
       { endTime := -4 * ONE_HOUR, cpu := 0, ram := 0, ping := 0 },
       { endTime := -3 * ONE_HOUR, cpu := 0, ram := 0, ping := 0 },
       { endTime := -2 * ONE_HOUR, cpu := 0, ram := 0, ping := 0 },
       { endTime := -ONE_HOUR, cpu := 50, ram := 60, ping := 15 },
       { endTime := 0, cpu := 10, ram := 20, ping := 5 }] := by
  norm_num [aggregate, retainFilter, hourEntries, mkBucket, avgKey, ONE_HOUR, SIX_HOURS,
    show List.range 6 = [0, 1, 2, 3, 4, 5] from rfl, List.filter_cons,
    jsRound_zero, jsRound_five, jsRound_ten, jsRound_fifteen, jsRound_twenty,
    jsRound_fifty, jsRound_sixty]

/-- C4: for the window holding exactly one sample 30 minutes old with
`cpu = 10, ram = 20, ping = 5` and one sample 90 minutes old with
`cpu = 50, ram = 60, ping = 15`, the aggregation emits, oldest first,
four zero buckets, then the bucket ending at `now - 1h` (covering
`[now - 2h, now - 1h)`) with `50/60/15`, then the bucket ending at
`now` (covering `[now - 1h, now)`) with `10/20/5`. -/
theorem two_sample_scenario (now : ℤ) :
    aggregate
        [{ time := now - 1800000, cpu := 10, ram := 20, ping := 5 },
         { time := now - 5400000, cpu := 50, ram := 60, ping := 15 }] now =
      [{ endTime := now - 5 * ONE_HOUR, cpu := 0, ram := 0, ping := 0 },
       { endTime := now - 4 * ONE_HOUR, cpu := 0, ram := 0, ping := 0 },
       { endTime := now - 3 * ONE_HOUR, cpu := 0, ram := 0, ping := 0 },
       { endTime := now - 2 * ONE_HOUR, cpu := 0, ram := 0, ping := 0 },
       { endTime := now - ONE_HOUR, cpu := 50, ram := 60, ping := 15 },
       { endTime := now, cpu := 10, ram := 20, ping := 5 }] := by
  have h := aggregate_shift now
      [{ time := -1800000, cpu := 10, ram := 20, ping := 5 },
       { time := -5400000, cpu := 50, ram := 60, ping := 15 }] 0
  rw [two_sample_scenario_base] at h
  have hl :
      ([{ time := (-1800000 : ℤ), cpu := 10, ram := 20, ping := 5 },
        { time := -5400000, cpu := 50, ram := 60, ping := 15 }].map (shiftE now)) =
      [{ time := now - 1800000, cpu := 10, ram := 20, ping := 5 },
       { time := now - 5400000, cpu := 50, ram := 60, ping := 15 }] := by
    simp only [List.map_cons, List.map_nil, shiftE, Entry.mk.injEq, List.cons.injEq,
      and_true, true_and]
    omega
  have hr :
      ([{ endTime := (-5 * ONE_HOUR : ℤ), cpu := 0, ram := 0, ping := 0 },
        { endTime := -4 * ONE_HOUR, cpu := 0, ram := 0, ping := 0 },
        { endTime := -3 * ONE_HOUR, cpu := 0, ram := 0, ping := 0 },
        { endTime := -2 * ONE_HOUR, cpu := 0, ram := 0, ping := 0 },
        { endTime := -ONE_HOUR, cpu := 50, ram := 60, ping := 15 },
        { endTime := 0, cpu := 10, ram := 20, ping := 5 }].map (shiftB now)) =
      [{ endTime := now - 5 * ONE_HOUR, cpu := 0, ram := 0, ping := 0 },
       { endTime := now - 4 * ONE_HOUR, cpu := 0, ram := 0, ping := 0 },
       { endTime := now - 3 * ONE_HOUR, cpu := 0, ram := 0, ping := 0 },
       { endTime := now - 2 * ONE_HOUR, cpu := 0, ram := 0, ping := 0 },
       { endTime := now - ONE_HOUR, cpu := 50, ram := 60, ping := 15 },
       { endTime := now, cpu := 10, ram := 20, ping := 5 }] := by
    simp only [List.map_cons, List.map_nil, shiftB, Bucket.mk.injEq, List.cons.injEq,
      and_true, true_and, ONE_HOUR]
    omega
  rw [hl, hr, zero_add] at h
  exact h

/-- Per-core tick counters of one `os.cpus()` snapshot
(`times.user / nice / sys / irq / idle`). -/
structure CpuTimes where
  user : ℚ
  nice : ℚ
  sys : ℚ
  irq : ℚ
  idle : ℚ
deriving DecidableEq, Repr

/-- Possible outcomes of the promise inside `getCpuUsage`. -/
inductive CpuResult where
  | value (q : ℚ)
  | nonFinite
  | crash
deriving DecidableEq, Repr

/-- The idle delta of one core, the pair being
`(end snapshot core, start snapshot core)`:
`endTimes.idle - startTimes.idle`. -/
def coreIdleDelta (p : CpuTimes × CpuTimes) : ℚ := p.1.idle - p.2.idle

/-- The total delta of one core:
`(user - user) + (nice - nice) + (sys - sys) + (irq - irq) + idle`. -/
def coreTotalDelta (p : CpuTimes × CpuTimes) : ℚ :=
  (p.1.user - p.2.user) + (p.1.nice - p.2.nice) + (p.1.sys - p.2.sys) +
    (p.1.irq - p.2.irq) + (p.1.idle - p.2.idle)

/-- `totalIdle` accumulated by `endCpus.forEach`. -/
def totalIdleDelta (startCpus endCpus : List CpuTimes) : ℚ :=
  ((endCpus.zip startCpus).map coreIdleDelta).sum

/-- `totalTick` accumulated by `endCpus.forEach`. -/
def totalTickDelta (startCpus endCpus : List CpuTimes) : ℚ :=
  ((endCpus.zip startCpus).map coreTotalDelta).sum

/-- JavaScript `parseFloat(x.toFixed(2))`: round to two decimal places,
ties away from zero. -/
def jsToFixed2 (q : ℚ) : ℚ :=
  if q < 0 then -((⌊-q * 100 + 1 / 2⌋ : ℚ) / 100) else (⌊q * 100 + 1 / 2⌋ : ℚ) / 100

/-- Outcome of `getCpuUsage` on the two `os.cpus()` snapshots. The loop
`endCpus.forEach((cpu, i) => { const startCpu = startCpus[i]; ... })`
performs no length check: when the end snapshot has more cores than the
start snapshot, `startCpus[i]` is `undefined` and reading `.times`
throws a TypeError (`crash`); when `totalTick` is zero the division
produces a non-finite number (`nonFinite`); otherwise the promise
resolves `parseFloat((100 - totalIdle/totalTick*100).toFixed(2))`. -/
def getCpuUsage (startCpus endCpus : List CpuTimes) : CpuResult :=
  if startCpus.length < endCpus.length then .crash
  else if totalTickDelta startCpus endCpus = 0 then .nonFinite
  else .value (jsToFixed2
    (100 - totalIdleDelta startCpus endCpus / totalTickDelta startCpus endCpus * 100))

/-- A snapshot core with all counters zero. -/
def zeroTimes : CpuTimes := { user := 0, nice := 0, sys := 0, irq := 0, idle := 0 }

/-- C3 counterexample: two identical single-core snapshots have equal
core counts and non-negative per-mode deltas, yet `getCpuUsage` does
not produce any percentage: all deltas are zero, `totalIdle/totalTick`
is `0/0`, and the computed `cpuPercent` is `NaN`, not a number in
`[0, 100]`. -/
theorem cpu_usage_zero_delta_non_finite :
    getCpuUsage [zeroTimes] [zeroTimes] = .nonFinite ∧
    ∀ u : ℚ, getCpuUsage [zeroTimes] [zeroTimes] ≠ .value u := by
  have h : getCpuUsage [zeroTimes] [zeroTimes] = .nonFinite := by
    norm_num [getCpuUsage, totalTickDelta, coreTotalDelta, zeroTimes,
      List.zip_cons_cons, List.zip_nil_right]
  refine ⟨h, fun u hu => ?_⟩
  rw [h] at hu
  exact CpuResult.noConfusion hu

theorem jsToFixed2_bounds (q : ℚ) (h0 : 0 ≤ q) (h100 : q ≤ 100) :
    0 ≤ jsToFixed2 q ∧ jsToFixed2 q ≤ 100 := by
  unfold jsToFixed2
  rw [if_neg (by linarith)]
  constructor
  · have hfl : (0 : ℤ) ≤ ⌊q * 100 + 1 / 2⌋ := by
      rw [Int.le_floor]
      push_cast
      linarith
    apply div_nonneg _ (by norm_num)
    exact_mod_cast hfl
  · have hfl : ⌊q * 100 + 1 / 2⌋ ≤ 10000 := by
      have hlt : ⌊q * 100 + 1 / 2⌋ < 10001 := by
        rw [Int.floor_lt]
        push_cast
        linarith
      omega
    rw [div_le_iff₀ (by norm_num)]
    have hq : ((⌊q * 100 + 1 / 2⌋ : ℤ) : ℚ) ≤ (10000 : ℚ) := by exact_mod_cast hfl
    linarith

/-- C3 amended: for two snapshots with equal core counts, non-negative
per-mode deltas on every core, and a non-zero total tick delta, the
computed `cpuPercent` is a number in `[0, 100]`. -/
theorem cpu_percent_in_range (startCpus endCpus : List CpuTimes)
    (hlen : startCpus.length = endCpus.length)
    (hnn : ∀ p ∈ endCpus.zip startCpus,
      0 ≤ p.1.user - p.2.user ∧ 0 ≤ p.1.nice - p.2.nice ∧ 0 ≤ p.1.sys - p.2.sys ∧
      0 ≤ p.1.irq - p.2.irq ∧ 0 ≤ p.1.idle - p.2.idle)
    (htick : totalTickDelta startCpus endCpus ≠ 0) :
    ∃ u : ℚ, getCpuUsage startCpus endCpus = .value u ∧ 0 ≤ u ∧ u ≤ 100 := by
  have hidle_nn : 0 ≤ totalIdleDelta startCpus endCpus := by
    apply List.sum_nonneg
    intro x hx
    obtain ⟨p, hp, hpx⟩ := List.mem_map.mp hx
    have := hnn p hp
    unfold coreIdleDelta at hpx
    rw [← hpx]
    exact this.2.2.2.2
  have hle : totalIdleDelta startCpus endCpus ≤ totalTickDelta startCpus endCpus := by
    unfold totalIdleDelta totalTickDelta
    apply List.sum_le_sum
    intro p hp
    have := hnn p hp
    unfold coreIdleDelta coreTotalDelta
    linarith [this.1, this.2.1, this.2.2.1, this.2.2.2.1]
  have htick_pos : 0 < totalTickDelta startCpus endCpus :=
    lt_of_le_of_ne (le_trans hidle_nn hle) (Ne.symm htick)
  have hratio0 : 0 ≤ totalIdleDelta startCpus endCpus / totalTickDelta startCpus endCpus :=
    div_nonneg hidle_nn (le_of_lt htick_pos)
  have hratio1 : totalIdleDelta startCpus endCpus / totalTickDelta startCpus endCpus ≤ 1 :=
    (div_le_one htick_pos).mpr hle
  have husage0 :
      0 ≤ 100 - totalIdleDelta startCpus endCpus / totalTickDelta startCpus endCpus * 100 := by
    nlinarith
  have husage100 :
      100 - totalIdleDelta startCpus endCpus / totalTickDelta startCpus endCpus * 100 ≤ 100 := by
    nlinarith
  refine ⟨jsToFixed2
    (100 - totalIdleDelta startCpus endCpus / totalTickDelta startCpus endCpus * 100), ?_, ?_, ?_⟩
  · unfold getCpuUsage
    rw [if_neg (by omega), if_neg htick]
  · exact (jsToFixed2_bounds _ husage0 husage100).1
  · exact (jsToFixed2_bounds _ husage0 husage100).2

theorem cpu_percent_in_range_witness :
    ∃ u : ℚ,
      getCpuUsage [zeroTimes] [{ user := 4, nice := 0, sys := 0, irq := 0, idle := 6 }] =
        .value u ∧ 0 ≤ u ∧ u ≤ 100 :=
  cpu_percent_in_range [zeroTimes] [{ user := 4, nice := 0, sys := 0, irq := 0, idle := 6 }]
    rfl
    (by
      intro p hp
      simp only [List.zip_cons_cons, List.zip_nil_right, List.mem_singleton] at hp
      subst hp
      norm_num [zeroTimes])
    (by norm_num [totalTickDelta, coreTotalDelta, zeroTimes,
      List.zip_cons_cons, List.zip_nil_right])

/-- C5: the code performs no core-count length check. When the end
snapshot reports more cores than the start snapshot (the hot-plug case
the spec warns about), `getCpuUsage` dereferences `undefined` and
throws instead of detecting the mismatch and falling back to `0`. -/
theorem cpu_usage_core_mismatch_is_crash :
    getCpuUsage [] [zeroTimes] = .crash ∧
    getCpuUsage [] [zeroTimes] ≠ .value 0 := by
  have h : getCpuUsage [] [zeroTimes] = .crash := rfl
  refine ⟨h, fun hu => ?_⟩
  rw [h] at hu
  exact CpuResult.noConfusion hu

/-- Outcome of one invocation of the external latency probe
(`exec(ping ...)`): the process exits non-zero (`execError`), it exits
zero and the `time=` regular expression either fails to match
(`output none`) or yields a round-trip value (`output (some v)`), or
the process never exits within the bounded wait (`hang`). -/
inductive ProbeOutcome where
  | execError
  | output (rtt : Option ℚ)
  | hang
deriving DecidableEq, Repr

/-- `getPing()` as a function of the probe outcome. `some r` means the
promise resolves with `r` (`r = none` is `null`, the "no reading"
value); `none` means the promise never settles (callback never fires).
From the source: `if (err) return resolve(null);`
`resolve(match ? parseFloat(match[1]) : null)`. -/
def getPing : ProbeOutcome → Option (Option ℚ)
  | .execError => some none
  | .output m => some m
  | .hang => none

/-- The `ping` field of `getSystemPerformance()`:
`ping: ping ?? 0` — normalizes an absent reading to `0`. `none` means
the surrounding promise never settles because `getPing` did not. -/
def statsPing (o : ProbeOutcome) : Option ℚ :=
  (getPing o).map (fun p => p.getD 0)

/-- The `ping` reported by the stats query surface: the result of
`withTimeout(getSystemPerformance(), 3000, { ..., ping: 0 })` — if the
stats promise does not settle within the bound, the race resolves the
fallback object whose `ping` is `0`. -/
def monitorPing (o : ProbeOutcome) : ℚ :=
  (statsPing o).getD 0

/-- C7: for every failing probe outcome — non-zero exit code, output
the `time=` pattern does not match, or a probe that outlives the
bounded wait — `getPing` never resolves a numeric reading, and the
public stats result reports `ping` as `0` (no outcome is propagated as
an exception: the embedding is a total function on outcomes). -/
theorem probe_failure_yields_zero (o : ProbeOutcome)
    (hfail : o = .execError ∨ o = .output none ∨ o = .hang) :
    (∀ v : ℚ, getPing o ≠ some (some v)) ∧ monitorPing o = 0 := by
  rcases hfail with h | h | h <;> subst h <;>
    exact ⟨fun v hv => by simp [getPing] at hv, rfl⟩

theorem probe_failure_yields_zero_witness :
    (∀ v : ℚ, getPing .execError ≠ some (some v)) ∧ monitorPing .execError = 0 :=
  probe_failure_yields_zero .execError (Or.inl rfl)

/-- A sample as persisted on disk: `time` the ISO-8601 string produced
by `toISOString`, the three measurements as JSON numbers. -/
structure StoredEntry where
  time : String
  cpu : ℚ
  ram : ℚ
  ping : ℚ
deriving DecidableEq, Repr

/-- The JSON value tree: the shapes `JSON.stringify` writes and
`JSON.parse` yields. -/
inductive Json where
  | null
  | bool (b : Bool)
  | num (q : ℚ)
  | str (s : String)
  | arr (xs : List Json)
  | obj (kvs : List (String × Json))

/-- The JSON object written for one history entry:
`{ time: ..., cpu: ..., ram: ..., ping: ... }` (the key order of the
object literal in `recordPerformance`). -/
def entryToJson (e : StoredEntry) : Json :=
  .obj [("time", .str e.time), ("cpu", .num e.cpu), ("ram", .num e.ram), ("ping", .num e.ping)]

/-- The JSON value `saveHistory` serializes:
`JSON.stringify(performanceHistory, ...)` — the array of entry
objects. -/
def stringifyHistory (h : List StoredEntry) : Json :=
  .arr (h.map entryToJson)

/-- Reading one entry object back from parsed JSON. -/
def jsonToEntry : Json → Option StoredEntry
  | .obj [("time", .str t), ("cpu", .num c), ("ram", .num r), ("ping", .num p)] =>
    some { time := t, cpu := c, ram := r, ping := p }
  | _ => none

/-- Decoding the parsed history file back into a window. -/
def parseHistory : Json → Option (List StoredEntry)
  | .arr xs => xs.mapM jsonToEntry
  | _ => none

theorem jsonToEntry_entryToJson (e : StoredEntry) :
    jsonToEntry (entryToJson e) = some e := rfl

/-- C8: persisting a window and loading it back reproduces an
equivalent window: the decoder inverts the encoder, so the reloaded
window has the same number of samples with the same `time`, `cpu`,
`ram` and `ping` values in the same order. -/
theorem history_roundtrip (h : List StoredEntry) :
    parseHistory (stringifyHistory h) = some h := by
  unfold parseHistory stringifyHistory
  induction h with
  | nil => rfl
  | cons e t ih =>
    simp only [List.map_cons, List.mapM_cons, jsonToEntry_entryToJson]
    simp only [List.map] at ih
    rw [ih]
    rfl

/-- How the startup load leaves `performanceHistory`: the file may be
absent (`missing`, the initial `[]` stands), present but rejected by
`JSON.parse` (`corrupt`, the catch block logs and resets to `[]`), or
parsed successfully into a window. -/
inductive LoadSource where
  | missing
  | corrupt
  | parsed (h : List StoredEntry)

/-- `performanceHistory` after the load-at-startup block of the
source. -/
def loadHistory : LoadSource → List StoredEntry
  | .missing => []
  | .corrupt => []
  | .parsed h => h

/-- C9: a missing history file and a file whose contents fail to parse
both yield the empty window (the process continues), and appending to
the empty window obtained from a corrupt file succeeds: the window
becomes the one-element list and serializes to a valid one-element
JSON array. -/
theorem load_failure_empty_then_append :
    loadHistory .missing = [] ∧
    loadHistory .corrupt = [] ∧
    ∀ e : StoredEntry,
      loadHistory .corrupt ++ [e] = [e] ∧
      stringifyHistory (loadHistory .corrupt ++ [e]) = .arr [entryToJson e] :=
  ⟨rfl, rfl, fun e => ⟨rfl, rfl⟩⟩

/-- C10: pruning only deletes: the pruned window is a sublist of the
original window, so every surviving sample keeps its exact field
values and the relative order of the original window. -/
theorem prune_sublist (now R : ℤ) (w : List Entry) :
    (prune now R w).Sublist w := by
  rw [prune_eq_retainFilter]
  exact List.filter_sublist w

end Monitor
